import Mathlib

/-!
Verification of the file-organizer agent (`src/agent.py`).

The Python program is shallowly embedded:
* paths are lists of components (a slash-separated path string corresponds to
  its component list, e.g. "/tmp/a" ↦ ["", "tmp", "a"]; `os.path.dirname`
  is `List.dropLast`, rendering back is `String.intercalate "/"`);
* the filesystem is a finite map from paths to entries (regular file with
  content, or directory), with the `os`/`shutil` calls the script makes
  modelled as operations on that map;
* Python exceptions are `Except.error`; a caught-and-reported exception
  becomes the `"Error: ..."` string the handler actually returns;
* the Anthropic model service is an oracle: a list of scripted responses
  consumed one per loop iteration.
-/

namespace FileOrganizer

/-- A filesystem path, as its list of `/`-separated components. -/
abbrev Path := List String

/-- Render a component list back to the path string handed to the tools. -/
def renderPath (p : Path) : String := String.intercalate "/" p

/-- A filesystem entry: a regular file with its content (size = length), or a directory. -/
inductive Entry
  | file (content : String)
  | dir
deriving DecidableEq

/-- The filesystem: an association list from paths to entries (first match wins). -/
structure FS where
  entries : List (Path × Entry)
deriving DecidableEq

def lookupEntries : List (Path × Entry) → Path → Option Entry
  | [], _ => none
  | pe :: rest, p => if pe.1 = p then some pe.2 else lookupEntries rest p

def FS.lookup (fs : FS) (p : Path) : Option Entry := lookupEntries fs.entries p

/-- Model of `os.path.exists`. -/
def FS.pathExists (fs : FS) (p : Path) : Bool := (fs.lookup p).isSome

/-- Model of `os.path.isfile`. -/
def FS.isfile (fs : FS) (p : Path) : Bool :=
  match fs.lookup p with
  | some (.file _) => true
  | _ => false

/-- Model of `os.path.isdir`. -/
def FS.isdir (fs : FS) (p : Path) : Bool :=
  match fs.lookup p with
  | some .dir => true
  | _ => false

def eraseEntries : List (Path × Entry) → Path → List (Path × Entry)
  | [], _ => []
  | pe :: rest, p => if pe.1 = p then eraseEntries rest p else pe :: eraseEntries rest p

def FS.erase (fs : FS) (p : Path) : FS := ⟨eraseEntries fs.entries p⟩

def FS.insert (fs : FS) (p : Path) (e : Entry) : FS := ⟨(p, e) :: (fs.erase p).entries⟩

/-- The name of `q` when `q` is an immediate child of directory path `p`. -/
def childName (p q : Path) : Option String :=
  match q.getLast? with
  | none => none
  | some n => if q.dropLast = p then some n else none

/-- The immediate children of `p`, in filesystem-enumeration order (model of `os.listdir`'s list). -/
def FS.children (fs : FS) (p : Path) : List String :=
  fs.entries.filterMap (fun pe => childName p pe.1)

/-- All nonempty prefixes of a path, shortest first (the directories `os.makedirs` ensures). -/
def pathPrefixes (p : Path) : List Path :=
  (List.range p.length).map (fun i => p.take (i + 1))

/-- Create every missing path of `ps` as a directory, in order. -/
def FS.addDirs (fs : FS) (ps : List Path) : FS :=
  ps.foldl (fun acc q => if acc.pathExists q then acc else acc.insert q .dir) fs

/-- Model of `os.makedirs(p, exist_ok)`: creates `p` and all missing intermediate
directories; raises if the path is empty, if a prefix of `p` is an existing
regular file, or (when `exist_ok` is false) if `p` already is a directory. -/
def makedirs (fs : FS) (p : Path) (exist_ok : Bool) : Except String FS :=
  if p.isEmpty then
    .error ("FileNotFoundError: " ++ renderPath p)
  else if (pathPrefixes p).any (fun q => fs.isfile q) then
    .error ("FileExistsError: " ++ renderPath p)
  else if fs.isdir p && !exist_ok then
    .error ("FileExistsError: " ++ renderPath p)
  else
    .ok (fs.addDirs (pathPrefixes p))

/-- Model of `os.listdir(p)`: the names of the immediate children, or an exception
when `p` is not an existing directory. -/
def listdir (fs : FS) (p : Path) : Except String (List String) :=
  if fs.isdir p then .ok (fs.children p)
  else if fs.pathExists p then .error ("NotADirectoryError: " ++ renderPath p)
  else .error ("FileNotFoundError: " ++ renderPath p)

def lastDotIdxAux : List Char → Nat → Option Nat → Option Nat
  | [], _, acc => acc
  | c :: rest, i, acc => lastDotIdxAux rest (i + 1) (if c = '.' then some i else acc)

/-- Model of `os.path.splitext(name)[1]` for a single path component: the part of
`name` from its last dot on, unless every character before that dot is itself a
dot (so ".bashrc" has no extension). -/
def splitextExt (name : String) : String :=
  let cs := name.data
  match lastDotIdxAux cs 0 none with
  | none => ""
  | some i => if (cs.take i).all (fun c => c = '.') then "" else ⟨cs.drop i⟩

/-- The report line `list_directory` builds for one entry of the listing
(`agent.py` lines 86-92): `FILE: ...` for a regular file, `DIR:  ...` otherwise. -/
def entryLine (fs : FS) (path : Path) (entry : String) : String :=
  match fs.lookup (path ++ [entry]) with
  | some (.file c) =>
      let ext0 := splitextExt entry
      let ext := if ext0 = "" then "(no extension)" else ext0
      "FILE: " ++ entry ++ " | Extension: " ++ ext ++ " | Size: " ++ toString c.length ++ " bytes"
  | _ => "DIR:  " ++ entry ++ "/"

/-- Embedding of `list_directory` (`agent.py` lines 81-95): enumerate the directory,
report each entry on its own line, return the sentinel for an empty directory, and
convert any filesystem exception into an `"Error: ..."` string. -/
def list_directory (fs : FS) (path : Path) : String :=
  match listdir fs path with
  | .ok names =>
      let lines := names.map (entryLine fs path)
      if lines.isEmpty then "Directory is empty" else String.intercalate "\n" lines
  | .error e => "Error: " ++ e

/-- The `dest_dir` preparation step of `move_file` (`agent.py` lines 104-106):
`os.makedirs(dest_dir)` when `dest_dir` is non-empty and does not exist. -/
def moveMkdirStep (fs : FS) (destination : Path) : Except String FS :=
  let dest_dir := destination.dropLast
  if !dest_dir.isEmpty && !fs.pathExists dest_dir then makedirs fs dest_dir false
  else .ok fs

/-- Model of `os.rename(src, real_dst)`: raises when the source is missing or
the destination's parent is not an existing directory; renaming a file onto an
existing file silently overwrites it; renaming a directory onto a file raises,
otherwise it relocates every entry below the directory. -/
def osRename (fs : FS) (src real_dst : Path) : Except String FS :=
  match fs.lookup src with
  | none => .error ("FileNotFoundError: " ++ renderPath src)
  | some e =>
    if !real_dst.dropLast.isEmpty && !(fs.isdir real_dst.dropLast) then
      .error ("FileNotFoundError: " ++ renderPath real_dst)
    else
      match e with
      | .file c => .ok (((fs.erase src).erase real_dst).insert real_dst (.file c))
      | .dir =>
          if fs.isfile real_dst then
            .error ("NotADirectoryError: " ++ renderPath real_dst)
          else
            .ok ⟨fs.entries.map (fun pe =>
              if src.isPrefixOf pe.1 then (real_dst ++ pe.1.drop src.length, pe.2) else pe)⟩

/-- Model of `shutil.move(src, dst)`, following CPython's `shutil.move`: when
`dst` is an existing directory, moving it onto itself is a rename no-op, and
otherwise the source goes inside `dst` under its own base name — unless that
path already exists, in which case `shutil.Error` ("Destination path ...
already exists") is raised before any rename; when `dst` is not an existing
directory the move is a plain rename to `dst`. -/
def shutilMove (fs : FS) (src dst : Path) : Except String FS :=
  if fs.isdir dst then
    if src = dst then .ok fs
    else
      let real_dst := dst ++ [src.getLastD ""]
      if fs.pathExists real_dst then
        .error ("Destination path " ++ renderPath real_dst ++ " already exists")
      else osRename fs src real_dst
  else osRename fs src dst

/-- Embedding of `move_file` (`agent.py` lines 98-110): dry-run returns the
simulation message untouched; otherwise the destination's parent directory is
created if missing, the file is moved, and exceptions become `"Error: ..."`. -/
def move_file (dryRun : Bool) (fs : FS) (source destination : Path) : String × FS :=
  if dryRun then
    ("[DRY-RUN] Would move " ++ renderPath source ++ " to " ++ renderPath destination, fs)
  else
    match moveMkdirStep fs destination with
    | .error e => ("Error: " ++ e, fs)
    | .ok fs1 =>
      match shutilMove fs1 source destination with
      | .error e => ("Error: " ++ e, fs1)
      | .ok fs2 => ("Moved " ++ renderPath source ++ " to " ++ renderPath destination, fs2)

/-- Embedding of `create_folder` (`agent.py` lines 113-121): dry-run simulation
message, else `os.makedirs(path, exist_ok=True)` with exceptions caught. -/
def create_folder (dryRun : Bool) (fs : FS) (path : Path) : String × FS :=
  if dryRun then
    ("[DRY-RUN] Would create folder: " ++ renderPath path, fs)
  else
    match makedirs fs path true with
    | .ok fs1 => ("Created folder: " ++ renderPath path, fs1)
    | .error e => ("Error: " ++ e, fs)

/-- A tool's argument mapping (the `tool_input` dict): argument name to path value. -/
abbrev ToolInput := List (String × Path)

/-- A Python `tool_input[key]` subscript: the value, or an uncaught `KeyError`. -/
def lookupArg (input : ToolInput) (key : String) : Except String Path :=
  match input.find? (fun kv => kv.1 == key) with
  | some kv => .ok kv.2
  | none => .error ("KeyError: " ++ key)

/-- Embedding of `process_tool_call` (`agent.py` lines 124-136): dispatch on the
tool name by exact string equality; an unrecognized name yields the
"Unknown tool" text.  The required-argument subscripts happen here, outside
every handler's `try`, so a missing key is an uncaught `KeyError`
(`Except.error`), which also carries the (unchanged) filesystem away. -/
def process_tool_call (dryRun : Bool) (fs : FS) (tool_name : String) (tool_input : ToolInput) :
    Except String (String × FS) :=
  if tool_name = "list_directory" then
    (lookupArg tool_input "path").map (fun p => (list_directory fs p, fs))
  else if tool_name = "move_file" then do
    let s ← lookupArg tool_input "source"
    let d ← lookupArg tool_input "destination"
    pure (move_file dryRun fs s d)
  else if tool_name = "create_folder" then
    (lookupArg tool_input "path").map (fun p => create_folder dryRun fs p)
  else
    .ok ("Unknown tool: " ++ tool_name, fs)

/-- One content block of a model response: emitted text, or a tool-invocation
request with its identifier, tool name and argument mapping. -/
inductive Block
  | text (t : String)
  | tool_use (id : String) (name : String) (input : ToolInput)
deriving DecidableEq

/-- A response from the model service: its termination signal (`stop_reason`)
and its content blocks. -/
structure ModelResponse where
  stop_reason : String
  content : List Block
deriving DecidableEq

/-- One tool result entry sent back to the model (`agent.py` lines 227-231). -/
structure ToolResult where
  tool_use_id : String
  content : String
deriving DecidableEq

/-- The content payload of one transcript turn. -/
inductive MsgContent
  | text (t : String)
  | blocks (bs : List Block)
  | results (rs : List ToolResult)
deriving DecidableEq

/-- One turn of the conversation transcript. -/
structure Message where
  role : String
  content : MsgContent
deriving DecidableEq

/-- The agent loop's state: the transcript, the filesystem, and the console
output produced so far (in order). -/
structure LoopState where
  messages : List Message
  fs : FS
  output : List String
deriving DecidableEq

/-- The text the loop prints for a response's content (`agent.py` lines 199-201):
one `Agent:` line per block that has a `text` attribute. -/
def emitText (content : List Block) : List String :=
  content.filterMap (fun b =>
    match b with
    | .text t => some ("Agent: " ++ t)
    | .tool_use _ _ _ => none)

/-- The identifiers of a content list's tool-invocation requests, in order. -/
def toolUseIds (content : List Block) : List String :=
  content.filterMap (fun b =>
    match b with
    | .text _ => none
    | .tool_use id _ _ => some id)

/-- Render of the `json.dumps(block.input)` trace line. -/
def renderInput (input : ToolInput) : String :=
  String.intercalate ", " (input.map (fun kv => kv.1 ++ "=" ++ renderPath kv.2))

/-- The tool-execution `for` loop of one `tool_use` iteration (`agent.py` lines
216-231): run each `tool_use` block in emitted order, threading the filesystem,
collecting one result entry per request (tagged with the request's id) and the
trace output.  An uncaught `KeyError` from `process_tool_call` aborts it. -/
def execTools (dryRun : Bool) (fs : FS) : List Block → Except String (List ToolResult × FS × List String)
  | [] => .ok ([], fs, [])
  | .text _ :: rest => execTools dryRun fs rest
  | .tool_use id name input :: rest =>
    match process_tool_call dryRun fs name input with
    | .error e => .error e
    | .ok (result, fs1) =>
      match execTools dryRun fs1 rest with
      | .error e => .error e
      | .ok (rs, fs2, out) =>
          .ok (⟨id, result⟩ :: rs,
               fs2,
               ["[Tool Call] " ++ name, "[Input] " ++ renderInput input, "[Result] " ++ result] ++ out)

/-- Outcome of one iteration of the `while True` loop on one model response. -/
inductive StepResult
  | halted (s : LoopState)
  | continued (s : LoopState)
  | crashed (s : LoopState) (e : String)
deriving DecidableEq

/-- One iteration of the agent loop body on one model response (`agent.py`
lines 198-236): print the text blocks; on `"end_turn"` print the finish marker
and halt; on `"tool_use"` append the assistant turn, execute the requested
tools in order and append one user turn carrying all results; on any other
termination signal fall through and loop again with nothing changed. -/
def stepResponse (dryRun : Bool) (s : LoopState) (resp : ModelResponse) : StepResult :=
  let s0 : LoopState := ⟨s.messages, s.fs, s.output ++ emitText resp.content⟩
  if resp.stop_reason = "end_turn" then
    .halted ⟨s0.messages, s0.fs, s0.output ++ ["[Agent finished]"]⟩
  else if resp.stop_reason = "tool_use" then
    let s1 : LoopState := ⟨s0.messages ++ [⟨"assistant", .blocks resp.content⟩], s0.fs, s0.output⟩
    match execTools dryRun s1.fs resp.content with
    | .error e => .crashed s1 e
    | .ok (rs, fs1, out) =>
        .continued ⟨s1.messages ++ [⟨"user", .results rs⟩], fs1, s1.output ++ out⟩
  else
    .continued s0

/-- How a whole run ends: the model signalled `end_turn`; the scripted oracle
ran out of responses while the loop was still asking for more (the loop itself
has not halted); or an uncaught exception escaped the loop body. -/
inductive RunOutcome
  | finished (s : LoopState)
  | scriptExhausted (s : LoopState)
  | crashed (s : LoopState) (e : String)
deriving DecidableEq

/-- The `while True` loop, consuming one scripted model response per iteration. -/
def runLoop (dryRun : Bool) : List ModelResponse → LoopState → RunOutcome
  | [], s => .scriptExhausted s
  | r :: rest, s =>
    match stepResponse dryRun s r with
    | .halted s1 => .finished s1
    | .crashed s1 e => .crashed s1 e
    | .continued s1 => runLoop dryRun rest s1

/-- Embedding of `run_agent` (`agent.py` lines 154-236): the transcript starts
as exactly one user turn holding the request, and the loop runs against the
scripted model responses over the given filesystem. -/
def run_agent (user_request : String) (dry_run : Bool) (fs : FS)
    (script : List ModelResponse) : RunOutcome :=
  runLoop dry_run script ⟨[⟨"user", .text user_request⟩], fs, []⟩

/-- The transcript at halt, when the run finished via `end_turn`. -/
def finalMessages : RunOutcome → Option (List Message)
  | .finished s => some s.messages
  | _ => none

/-! ### Specification-side predicates -/

/-- The string `t` occurs inside `s` as a contiguous substring. -/
def containsStr (s t : String) : Prop := List.IsInfix t.data s.data

/-- The shape of every result the tool handlers produce from a caught exception. -/
def isErrorResult (s : String) : Prop := ∃ e, s = "Error: " ++ e

/-- A well-formed filesystem, as a real one underneath the script would be:
every recorded path's every proper ancestor is an existing directory. -/
def FS.WF (fs : FS) : Prop :=
  ∀ pe ∈ fs.entries, ∀ q ∈ pathPrefixes pe.1.dropLast, fs.isdir q = true

instance (fs : FS) : Decidable fs.WF := by
  unfold FS.WF
  infer_instance

/-- A tool-invocation request that conforms to the declared tool schemas: its
argument mapping carries every key the named tool's handler subscripts
(requests naming undeclared tools are unconstrained, the dispatcher never
subscripts their arguments). -/
def blockOk : Block → Bool
  | .text _ => true
  | .tool_use _ name input =>
    if name = "list_directory" then (input.find? (fun kv => kv.1 == "path")).isSome
    else if name = "move_file" then
      (input.find? (fun kv => kv.1 == "source")).isSome &&
      (input.find? (fun kv => kv.1 == "destination")).isSome
    else if name = "create_folder" then (input.find? (fun kv => kv.1 == "path")).isSome
    else true

/-! ### Helper lemmas about the filesystem model -/

theorem lookupEntries_erase_ne (p q : Path) (h : q ≠ p) :
    ∀ l : List (Path × Entry), lookupEntries (eraseEntries l p) q = lookupEntries l q := by
  intro l
  induction l with
  | nil => rfl
  | cons pe rest ih =>
    have h3 : p ≠ q := fun hh => h hh.symm
    by_cases h1 : pe.1 = p
    · simp [eraseEntries, lookupEntries, h1, h3, ih]
    · by_cases h2 : pe.1 = q
      · simp [eraseEntries, lookupEntries, h1, h2, h]
      · simp [eraseEntries, lookupEntries, h1, h2, ih]

theorem lookupEntries_erase_self (p : Path) :
    ∀ l : List (Path × Entry), lookupEntries (eraseEntries l p) p = none := by
  intro l
  induction l with
  | nil => rfl
  | cons pe rest ih =>
    by_cases h1 : pe.1 = p
    · simp [eraseEntries, h1, ih]
    · simp [eraseEntries, lookupEntries, h1, ih]

theorem FS.lookup_erase_ne (fs : FS) (p q : Path) (h : q ≠ p) :
    (fs.erase p).lookup q = fs.lookup q :=
  lookupEntries_erase_ne p q h fs.entries

theorem FS.lookup_erase_self (fs : FS) (p : Path) : (fs.erase p).lookup p = none :=
  lookupEntries_erase_self p fs.entries

theorem FS.lookup_insert_self (fs : FS) (p : Path) (e : Entry) :
    (fs.insert p e).lookup p = some e := by
  show lookupEntries ((p, e) :: eraseEntries fs.entries p) p = some e
  simp [lookupEntries]

theorem FS.lookup_insert_ne (fs : FS) (p q : Path) (e : Entry) (h : q ≠ p) :
    (fs.insert p e).lookup q = fs.lookup q := by
  have h1 : p ≠ q := fun hp => h hp.symm
  show lookupEntries ((p, e) :: eraseEntries fs.entries p) q = _
  simp only [lookupEntries, if_neg h1]
  exact lookupEntries_erase_ne p q h fs.entries

theorem mem_of_lookupEntries (p : Path) (e : Entry) :
    ∀ l : List (Path × Entry), lookupEntries l p = some e → (p, e) ∈ l := by
  intro l
  induction l with
  | nil => intro h; exact absurd h (by simp [lookupEntries])
  | cons pe rest ih =>
    intro h
    rw [lookupEntries] at h
    by_cases h1 : pe.1 = p
    · rw [if_pos h1] at h
      have hpe : pe = (p, e) := Prod.ext h1 (Option.some.inj h)
      simp [hpe]
    · rw [if_neg h1] at h
      exact List.mem_cons_of_mem _ (ih h)

theorem FS.mem_of_lookup (fs : FS) (p : Path) (e : Entry) (h : fs.lookup p = some e) :
    (p, e) ∈ fs.entries :=
  mem_of_lookupEntries p e fs.entries h

theorem FS.addDirs_lookup_some (p : Path) (e : Entry) :
    ∀ (ps : List Path) (fs : FS), fs.lookup p = some e → (fs.addDirs ps).lookup p = some e := by
  intro ps
  induction ps with
  | nil => exact fun fs h => h
  | cons q rest ih =>
    intro fs h
    show ((if fs.pathExists q then fs else fs.insert q .dir).addDirs rest).lookup p = some e
    by_cases hq : fs.pathExists q
    · rw [if_pos hq]; exact ih fs h
    · rw [if_neg hq]
      apply ih
      have hpq : p ≠ q := by
        intro hpq
        rw [hpq] at h
        unfold FS.pathExists at hq
        rw [h] at hq
        simp at hq
      rw [FS.lookup_insert_ne fs q p .dir hpq]
      exact h

theorem FS.addDirs_lookup_not_mem (p : Path) :
    ∀ (ps : List Path) (fs : FS), p ∉ ps → (fs.addDirs ps).lookup p = fs.lookup p := by
  intro ps
  induction ps with
  | nil => exact fun fs _ => rfl
  | cons q rest ih =>
    intro fs hmem
    show ((if fs.pathExists q then fs else fs.insert q .dir).addDirs rest).lookup p = _
    have hpq : p ≠ q := fun h => hmem (h ▸ List.mem_cons_self q rest)
    have hrest : p ∉ rest := fun h => hmem (List.mem_cons_of_mem q h)
    by_cases hq : fs.pathExists q
    · rw [if_pos hq]; exact ih fs hrest
    · rw [if_neg hq]
      rw [ih (fs.insert q .dir) hrest]
      exact FS.lookup_insert_ne fs q p .dir hpq

theorem FS.addDirs_isdir :
    ∀ (ps : List Path) (fs : FS), (∀ q ∈ ps, fs.isfile q = false) →
      ∀ q ∈ ps, (fs.addDirs ps).isdir q = true := by
  intro ps
  induction ps with
  | nil => intro fs _ q hq; cases hq
  | cons q0 rest ih =>
    intro fs hfile q hq
    have hstep : fs.addDirs (q0 :: rest)
        = (if fs.pathExists q0 then fs else fs.insert q0 .dir).addDirs rest := rfl
    have hq0dir : (if fs.pathExists q0 then fs else fs.insert q0 .dir).lookup q0 = some .dir := by
      by_cases hex : fs.pathExists q0
      · rw [if_pos hex]
        have hf : fs.isfile q0 = false := hfile q0 (List.mem_cons_self q0 rest)
        unfold FS.pathExists at hex
        unfold FS.isfile at hf
        cases hlk : fs.lookup q0 with
        | none => rw [hlk] at hex; simp at hex
        | some e =>
          cases e with
          | file c => rw [hlk] at hf; simp at hf
          | dir => rfl
      · rw [if_neg hex]
        exact FS.lookup_insert_self fs q0 .dir
    have hfile2 : ∀ r ∈ rest, (if fs.pathExists q0 then fs else fs.insert q0 .dir).isfile r = false := by
      intro r hr
      by_cases hex : fs.pathExists q0
      · rw [if_pos hex]; exact hfile r (List.mem_cons_of_mem q0 hr)
      · rw [if_neg hex]
        by_cases hrq : r = q0
        · unfold FS.isfile
          rw [hrq, FS.lookup_insert_self]
        · unfold FS.isfile
          rw [FS.lookup_insert_ne fs q0 r .dir hrq]
          have := hfile r (List.mem_cons_of_mem q0 hr)
          unfold FS.isfile at this
          exact this
    rcases List.mem_cons.mp hq with hq | hq
    · subst hq
      rw [hstep]
      unfold FS.isdir
      rw [FS.addDirs_lookup_some q .dir rest _ hq0dir]
    · rw [hstep]
      exact ih _ hfile2 q hq

/-! ### Helper lemmas about path prefixes -/

theorem mem_pathPrefixes_iff (p q : Path) :
    q ∈ pathPrefixes p ↔ ∃ i, i < p.length ∧ q = p.take (i + 1) := by
  simp only [pathPrefixes, List.mem_map, List.mem_range]
  constructor
  · rintro ⟨i, hi, he⟩; exact ⟨i, hi, he.symm⟩
  · rintro ⟨i, hi, he⟩; exact ⟨i, hi, he.symm⟩

theorem length_le_of_mem_pathPrefixes (p q : Path) (h : q ∈ pathPrefixes p) :
    q.length ≤ p.length := by
  rcases (mem_pathPrefixes_iff p q).mp h with ⟨i, _, he⟩
  rw [he, List.length_take]
  exact min_le_right _ _

theorem self_mem_pathPrefixes (p : Path) (h : p ≠ []) : p ∈ pathPrefixes p := by
  apply (mem_pathPrefixes_iff p p).mpr
  have hl : 0 < p.length := List.length_pos.mpr h
  refine ⟨p.length - 1, by omega, ?_⟩
  rw [Nat.sub_add_cancel hl, List.take_length]

theorem mem_pathPrefixes_dropLast_or_self (p q : Path) (h : q ∈ pathPrefixes p) :
    q = p ∨ q ∈ pathPrefixes p.dropLast := by
  rcases (mem_pathPrefixes_iff p q).mp h with ⟨i, hi, he⟩
  by_cases hlast : i + 1 = p.length
  · left
    rw [he, hlast, List.take_length]
  · right
    apply (mem_pathPrefixes_iff _ q).mpr
    have hlt : i + 1 < p.length := lt_of_le_of_ne hi hlast
    refine ⟨i, ?_, ?_⟩
    · rw [List.length_dropLast]; omega
    · rw [he, List.dropLast_eq_take, List.take_take]
      congr 1
      omega

/-! ### Helper lemmas about the result strings -/

theorem append_ne_append_of_head (a b : String) (ca cb : Char) (la lb : List Char)
    (ha : a.data = ca :: la) (hb : b.data = cb :: lb) (hc : ca ≠ cb) (x y : String) :
    a ++ x ≠ b ++ y := by
  intro h
  have h2 := congrArg String.data h
  rw [String.data_append, String.data_append, ha, hb] at h2
  simp at h2
  exact hc h2.1

theorem moved_ne_error (x e : String) : "Moved " ++ x ≠ "Error: " ++ e :=
  append_ne_append_of_head _ _ 'M' 'E' _ _ rfl rfl (by decide) x e

theorem created_ne_error (x e : String) : "Created folder: " ++ x ≠ "Error: " ++ e :=
  append_ne_append_of_head _ _ 'C' 'E' _ _ rfl rfl (by decide) x e

/-! ### Helper lemmas about the tool executor and the loop -/

theorem process_tool_call_ok (d : Bool) (fs : FS) (id name : String) (input : ToolInput)
    (h : blockOk (.tool_use id name input) = true) :
    ∃ r fs1, process_tool_call d fs name input = .ok (r, fs1) := by
  rw [blockOk] at h
  unfold process_tool_call
  by_cases h1 : name = "list_directory"
  · rw [if_pos h1] at h ⊢
    rcases Option.isSome_iff_exists.mp h with ⟨kv, hkv⟩
    unfold lookupArg
    rw [hkv]
    exact ⟨_, _, rfl⟩
  · rw [if_neg h1] at h ⊢
    by_cases h2 : name = "move_file"
    · rw [if_pos h2] at h ⊢
      rw [Bool.and_eq_true] at h
      rcases Option.isSome_iff_exists.mp h.1 with ⟨kv1, hkv1⟩
      rcases Option.isSome_iff_exists.mp h.2 with ⟨kv2, hkv2⟩
      unfold lookupArg
      rw [hkv1, hkv2]
      exact ⟨_, _, rfl⟩
    · rw [if_neg h2] at h ⊢
      by_cases h3 : name = "create_folder"
      · rw [if_pos h3] at h ⊢
        rcases Option.isSome_iff_exists.mp h with ⟨kv, hkv⟩
        unfold lookupArg
        rw [hkv]
        exact ⟨_, _, rfl⟩
      · rw [if_neg h3]
        exact ⟨_, _, rfl⟩

theorem execTools_ok (d : Bool) :
    ∀ (blocks : List Block) (fs : FS), blocks.all blockOk = true →
      ∃ rs fs2 out, execTools d fs blocks = .ok (rs, fs2, out) ∧
        rs.map ToolResult.tool_use_id = toolUseIds blocks := by
  intro blocks
  induction blocks with
  | nil => exact fun fs _ => ⟨[], fs, [], rfl, rfl⟩
  | cons b rest ih =>
    intro fs hall
    rw [List.all_cons, Bool.and_eq_true] at hall
    cases b with
    | text t =>
      rcases ih fs hall.2 with ⟨rs, fs2, out, he, hm⟩
      refine ⟨rs, fs2, out, ?_, ?_⟩
      · rw [execTools, he]
      · rw [hm]; rfl
    | tool_use id name input =>
      rcases process_tool_call_ok d fs id name input hall.1 with ⟨r, fs1, hp⟩
      rcases ih fs1 hall.2 with ⟨rs, fs2, out, he, hm⟩
      refine ⟨⟨id, r⟩ :: rs, fs2,
        ["[Tool Call] " ++ name, "[Input] " ++ renderInput input, "[Result] " ++ r] ++ out, ?_, ?_⟩
      · simp only [execTools, hp, he]
      · show id :: rs.map ToolResult.tool_use_id = toolUseIds (Block.tool_use id name input :: rest)
        rw [hm]
        rfl

theorem FS.lookup_eq_dir_of_isdir (fs : FS) (p : Path) (h : fs.isdir p = true) :
    fs.lookup p = some .dir := by
  unfold FS.isdir at h
  cases hlk : fs.lookup p with
  | none => rw [hlk] at h; simp at h
  | some e =>
    cases e with
    | file c => rw [hlk] at h; simp at h
    | dir => rfl

theorem FS.isfile_eq_false_of_isdir (fs : FS) (p : Path) (h : fs.isdir p = true) :
    fs.isfile p = false := by
  unfold FS.isfile
  rw [FS.lookup_eq_dir_of_isdir fs p h]

theorem FS.pathExists_eq_true_of_isdir (fs : FS) (p : Path) (h : fs.isdir p = true) :
    fs.pathExists p = true := by
  unfold FS.pathExists
  rw [FS.lookup_eq_dir_of_isdir fs p h]
  rfl

theorem FS.lookup_eq_none_of_not_exists (fs : FS) (p : Path) (h : fs.pathExists p = false) :
    fs.lookup p = none := by
  unfold FS.pathExists at h
  cases hlk : fs.lookup p with
  | none => rfl
  | some e => rw [hlk] at h; simp at h

theorem FS.isdir_eq_false_of_not_exists (fs : FS) (p : Path) (h : fs.pathExists p = false) :
    fs.isdir p = false := by
  unfold FS.isdir
  rw [FS.lookup_eq_none_of_not_exists fs p h]

theorem FS.isfile_exists_file (fs : FS) (p : Path) (h : fs.isfile p = true) :
    ∃ c, fs.lookup p = some (.file c) := by
  unfold FS.isfile at h
  cases hlk : fs.lookup p with
  | none => rw [hlk] at h; simp at h
  | some e =>
    cases e with
    | file c => exact ⟨c, rfl⟩
    | dir => rw [hlk] at h; simp at h

theorem zip_map_eq {α β : Type} (f : α → β) :
    ∀ (xs : List α) (y : β) (x : α), (y, x) ∈ (xs.map f).zip xs → y = f x := by
  intro xs
  induction xs with
  | nil => intro y x h; cases h
  | cons a rest ih =>
    intro y x h
    rcases List.mem_cons.mp h with h | h
    · rw [Prod.mk.injEq] at h
      rw [h.1, h.2]
    · exact ih y x h

theorem shutilMove_file_rename (fs1 : FS) (src dst : Path) (c : String)
    (hlk1 : fs1.lookup src = some (.file c))
    (hnd1 : fs1.isdir dst = false)
    (hpar : dst.dropLast.isEmpty = true ∨ fs1.isdir dst.dropLast = true) :
    shutilMove fs1 src dst = .ok (((fs1.erase src).erase dst).insert dst (.file c)) := by
  have hbr : shutilMove fs1 src dst = osRename fs1 src dst := by
    unfold shutilMove
    rw [hnd1]
    simp
  rw [hbr]
  unfold osRename
  rw [hlk1]
  rcases hpar with hpar | hpar <;> simp [hpar]

theorem insert_erase_post (fs1 : FS) (src dst : Path) (e : Entry) (hne : src ≠ dst) :
    (((fs1.erase src).erase dst).insert dst e).lookup src = none ∧
    (((fs1.erase src).erase dst).insert dst e).lookup dst = some e ∧
    ∀ q, q ≠ src → q ≠ dst → (((fs1.erase src).erase dst).insert dst e).lookup q = fs1.lookup q := by
  refine ⟨?_, FS.lookup_insert_self _ _ _, ?_⟩
  · rw [FS.lookup_insert_ne _ dst src e hne, FS.lookup_erase_ne _ dst src hne,
      FS.lookup_erase_self]
  · intro q h1 h2
    rw [FS.lookup_insert_ne _ dst q e h2, FS.lookup_erase_ne _ dst q h2,
      FS.lookup_erase_ne _ src q h1]

theorem stepResponse_unknown (d : Bool) (s : LoopState) (resp : ModelResponse)
    (h1 : resp.stop_reason ≠ "end_turn") (h2 : resp.stop_reason ≠ "tool_use") :
    stepResponse d s resp = .continued ⟨s.messages, s.fs, s.output ++ emitText resp.content⟩ := by
  unfold stepResponse
  rw [if_neg h1, if_neg h2]

/-! ### The claims -/

/-- C1: for every model response whose termination signal is `"tool_use"` whose
tool-invocation requests carry distinct identifiers (and, as the model-service
protocol guarantees, argument values conforming to each named tool's declared
schema), one loop iteration executes the requests sequentially in emitted
order and appends the assistant turn followed by exactly one user turn holding
exactly one result entry per request, the k-th result carrying the identifier
of the k-th request. -/
theorem claim_C1 (d : Bool) (s : LoopState) (resp : ModelResponse)
    (hsr : resp.stop_reason = "tool_use")
    (hok : resp.content.all blockOk = true)
    (hids : (toolUseIds resp.content).Nodup) :
    ∃ rs fs1 out,
      stepResponse d s resp
        = .continued ⟨s.messages ++ [⟨"assistant", .blocks resp.content⟩, ⟨"user", .results rs⟩],
            fs1, s.output ++ emitText resp.content ++ out⟩ ∧
      rs.length = (toolUseIds resp.content).length ∧
      rs.map ToolResult.tool_use_id = toolUseIds resp.content := by
  rcases execTools_ok d resp.content s.fs hok with ⟨rs, fs2, out, he, hm⟩
  refine ⟨rs, fs2, out, ?_, ?_, hm⟩
  · unfold stepResponse
    rw [if_neg (by rw [hsr]; decide), if_pos hsr]
    dsimp only
    rw [he]
    simp [List.append_assoc]
  · rw [← hm, List.length_map]

/-- C1 witness: a concrete `tool_use` response with two schema-conformant
requests, run from a concrete state. -/
theorem claim_C1_witness :
    (ModelResponse.mk "tool_use"
        [.text "plan", .tool_use "t1" "list_directory" [("path", ["", "tmp"])],
         .tool_use "t2" "create_folder" [("path", ["", "tmp", "docs"])]]).stop_reason
      = "tool_use" ∧
    ((ModelResponse.mk "tool_use"
        [.text "plan", .tool_use "t1" "list_directory" [("path", ["", "tmp"])],
         .tool_use "t2" "create_folder" [("path", ["", "tmp", "docs"])]]).content.all blockOk
      = true) ∧
    (∃ rs fs1 out,
      stepResponse false ⟨[⟨"user", .text "hi"⟩], ⟨[(["", "tmp"], .dir)]⟩, []⟩
          ⟨"tool_use",
            [.text "plan", .tool_use "t1" "list_directory" [("path", ["", "tmp"])],
             .tool_use "t2" "create_folder" [("path", ["", "tmp", "docs"])]]⟩
        = .continued ⟨[⟨"user", .text "hi"⟩,
            ⟨"assistant", .blocks
              [.text "plan", .tool_use "t1" "list_directory" [("path", ["", "tmp"])],
               .tool_use "t2" "create_folder" [("path", ["", "tmp", "docs"])]]⟩,
            ⟨"user", .results rs⟩], fs1,
            [] ++ emitText
              [.text "plan", .tool_use "t1" "list_directory" [("path", ["", "tmp"])],
               .tool_use "t2" "create_folder" [("path", ["", "tmp", "docs"])]] ++ out⟩ ∧
      rs.length = (toolUseIds
        [.text "plan", .tool_use "t1" "list_directory" [("path", ["", "tmp"])],
         .tool_use "t2" "create_folder" [("path", ["", "tmp", "docs"])]]).length ∧
      rs.map ToolResult.tool_use_id = toolUseIds
        [.text "plan", .tool_use "t1" "list_directory" [("path", ["", "tmp"])],
         .tool_use "t2" "create_folder" [("path", ["", "tmp", "docs"])]]) :=
  ⟨rfl, by decide,
   claim_C1 false ⟨[⟨"user", .text "hi"⟩], ⟨[(["", "tmp"], .dir)]⟩, []⟩
     ⟨"tool_use",
       [.text "plan", .tool_use "t1" "list_directory" [("path", ["", "tmp"])],
        .tool_use "t2" "create_folder" [("path", ["", "tmp", "docs"])]]⟩
     rfl (by decide) (by decide)⟩

/-- C2 counterexample: on a response whose termination signal is neither
`"end_turn"` nor `"tool_use"` (here `"max_tokens"`), the loop body emits no
warning and does not halt: the iteration falls through unchanged, and a run
consumes further model responses after the unrecognized one, halting only
when a later response signals `"end_turn"`. -/
theorem claim_C2_cex :
    stepResponse false ⟨[⟨"user", .text "organize /tmp/x"⟩], ⟨[]⟩, []⟩ ⟨"max_tokens", []⟩
      = .continued ⟨[⟨"user", .text "organize /tmp/x"⟩], ⟨[]⟩, []⟩ ∧
    run_agent "organize /tmp/x" false ⟨[]⟩ [⟨"max_tokens", []⟩, ⟨"end_turn", []⟩]
      = .finished ⟨[⟨"user", .text "organize /tmp/x"⟩], ⟨[]⟩, ["[Agent finished]"]⟩ :=
  ⟨rfl, rfl⟩

/-- C2 (amended): for every model response whose termination signal is neither
`"end_turn"` nor `"tool_use"`, the loop body does not crash, but it also does
not halt and reports no warning: the iteration leaves the transcript and the
filesystem unchanged, emits only the response's text segments, and re-enters
the dispatch state. -/
theorem claim_C2 (d : Bool) (s : LoopState) (resp : ModelResponse)
    (h1 : resp.stop_reason ≠ "end_turn") (h2 : resp.stop_reason ≠ "tool_use") :
    stepResponse d s resp = .continued ⟨s.messages, s.fs, s.output ++ emitText resp.content⟩ :=
  stepResponse_unknown d s resp h1 h2

/-- C2 witness: the amended statement at a concrete unrecognized signal. -/
theorem claim_C2_witness :
    (ModelResponse.mk "stop_sequence" [.text "note"]).stop_reason ≠ "end_turn" ∧
    (ModelResponse.mk "stop_sequence" [.text "note"]).stop_reason ≠ "tool_use" ∧
    stepResponse true ⟨[⟨"user", .text "hi"⟩], ⟨[]⟩, ["x"]⟩ ⟨"stop_sequence", [.text "note"]⟩
      = .continued ⟨[⟨"user", .text "hi"⟩], ⟨[]⟩, ["x"] ++ emitText [.text "note"]⟩ :=
  ⟨by decide, by decide,
   claim_C2 true ⟨[⟨"user", .text "hi"⟩], ⟨[]⟩, ["x"]⟩ ⟨"stop_sequence", [.text "note"]⟩
     (by decide) (by decide)⟩

/-- C3 counterexample: when the first model response signals `"end_turn"`, the
loop halts, but the transcript at halt is exactly the initial user turn — the
final assistant turn is never appended (`messages.append` only runs in the
`"tool_use"` branch), so the claimed two-turn transcript is not what the code
leaves behind. -/
theorem claim_C3_cex :
    finalMessages (run_agent "organize /tmp/x" false ⟨[]⟩ [⟨"end_turn", [.text "all done"]⟩])
      = some [⟨"user", .text "organize /tmp/x"⟩] ∧
    some [(⟨"user", .text "organize /tmp/x"⟩ : Message)]
      ≠ some [⟨"user", .text "organize /tmp/x"⟩, ⟨"assistant", .blocks [.text "all done"]⟩] :=
  ⟨rfl, by decide⟩

/-- C3 (amended): if the first model response signals `"end_turn"` with no
tool-invocation requests, the loop emits the response's text segments followed
by the finish marker and halts, and the transcript at halt consists of the
initial user turn only — the assistant turn is not appended. -/
theorem claim_C3 (req : String) (d : Bool) (fs : FS)
    (resp : ModelResponse) (rest : List ModelResponse)
    (hsr : resp.stop_reason = "end_turn") (hnt : toolUseIds resp.content = []) :
    run_agent req d fs (resp :: rest)
      = .finished ⟨[⟨"user", .text req⟩], fs, emitText resp.content ++ ["[Agent finished]"]⟩ := by
  have hstep : stepResponse d ⟨[⟨"user", .text req⟩], fs, []⟩ resp
      = .halted ⟨[⟨"user", .text req⟩], fs, [] ++ emitText resp.content ++ ["[Agent finished]"]⟩ := by
    unfold stepResponse
    rw [if_pos hsr]
  unfold run_agent runLoop
  rw [hstep]
  simp

/-- C3 witness: the amended statement at a concrete first response. -/
theorem claim_C3_witness :
    (ModelResponse.mk "end_turn" [.text "all sorted"]).stop_reason = "end_turn" ∧
    toolUseIds [Block.text "all sorted"] = [] ∧
    run_agent "organize /tmp/x" false ⟨[(["", "tmp"], .dir)]⟩
        [⟨"end_turn", [.text "all sorted"]⟩, ⟨"end_turn", []⟩]
      = .finished ⟨[⟨"user", .text "organize /tmp/x"⟩], ⟨[(["", "tmp"], .dir)]⟩,
          emitText [.text "all sorted"] ++ ["[Agent finished]"]⟩ :=
  ⟨rfl, rfl,
   claim_C3 "organize /tmp/x" false ⟨[(["", "tmp"], .dir)]⟩ ⟨"end_turn", [.text "all sorted"]⟩
     [⟨"end_turn", []⟩] rfl rfl⟩

/-- C4: with the dry-run flag active, `move_file` leaves the filesystem
untouched and returns a string containing the simulation marker `"[DRY-RUN]"`,
the source path and the destination path. -/
theorem claim_C4 (fs : FS) (source destination : Path) :
    (move_file true fs source destination).2 = fs ∧
    containsStr (move_file true fs source destination).1 "[DRY-RUN]" ∧
    containsStr (move_file true fs source destination).1 (renderPath source) ∧
    containsStr (move_file true fs source destination).1 (renderPath destination) := by
  refine ⟨rfl, ?_, ?_, ?_⟩
  · refine ⟨[], (" Would move " ++ renderPath source ++ " to " ++ renderPath destination).data, ?_⟩
    show _ = ("[DRY-RUN] Would move " ++ renderPath source ++ " to "
      ++ renderPath destination).data
    simp only [String.data_append, List.append_assoc, List.nil_append]
    rfl
  · refine ⟨"[DRY-RUN] Would move ".data, (" to " ++ renderPath destination).data, ?_⟩
    show _ = ("[DRY-RUN] Would move " ++ renderPath source ++ " to "
      ++ renderPath destination).data
    simp only [String.data_append, List.append_assoc, List.nil_append]
  · refine ⟨("[DRY-RUN] Would move " ++ renderPath source ++ " to ").data, [], ?_⟩
    show _ = ("[DRY-RUN] Would move " ++ renderPath source ++ " to "
      ++ renderPath destination).data
    simp only [String.data_append, List.append_assoc, List.nil_append, List.append_nil]

/-- C8: for every tool name other than the three registered ones, and any
argument mapping at all, `process_tool_call` returns the textual
"Unknown tool" result (it never raises), dispatching by exact string
equality on the name. -/
theorem claim_C8 (d : Bool) (fs : FS) (name : String) (input : ToolInput)
    (h1 : name ≠ "list_directory") (h2 : name ≠ "move_file") (h3 : name ≠ "create_folder") :
    process_tool_call d fs name input = .ok ("Unknown tool: " ++ name, fs) := by
  unfold process_tool_call
  rw [if_neg h1, if_neg h2, if_neg h3]

/-- C8 witness: a concrete unregistered tool name with a populated mapping. -/
theorem claim_C8_witness :
    ("delete_file" : String) ≠ "list_directory" ∧
    ("delete_file" : String) ≠ "move_file" ∧
    ("delete_file" : String) ≠ "create_folder" ∧
    process_tool_call false ⟨[]⟩ "delete_file" [("path", ["", "tmp"])]
      = .ok ("Unknown tool: " ++ "delete_file", ⟨[]⟩) :=
  ⟨by decide, by decide, by decide,
   claim_C8 false ⟨[]⟩ "delete_file" [("path", ["", "tmp"])]
     (by decide) (by decide) (by decide)⟩

/-- C10: there is an input with a recognized tool name whose argument mapping
lacks the required key, on which `process_tool_call` raises an uncaught lookup
error (`KeyError`, modelled as `Except.error`) instead of returning a textual
result: the `tool_input` subscripts run before any handler's error catching. -/
theorem claim_C10 :
    process_tool_call false ⟨[(["", "tmp"], .dir)]⟩ "list_directory" [("directory", ["", "tmp"])]
      = .error "KeyError: path" := rfl

/-- C6: for every existing directory with at least one immediate entry,
`list_directory` returns the newline-join of a list of lines with exactly one
line per immediate entry in enumeration order; the line of a regular file is
`FILE: name | Extension: ext | Size: n bytes` with the entry's true byte size
and true extension (the sentinel `(no extension)` when the name has none), and
the line of a subdirectory is `DIR:  name/`. -/
theorem claim_C6 (fs : FS) (path : Path)
    (hdir : fs.isdir path = true) (hne : fs.children path ≠ []) :
    ∃ lines : List String,
      list_directory fs path = String.intercalate "\n" lines ∧
      lines.length = (fs.children path).length ∧
      ∀ ln name, (ln, name) ∈ lines.zip (fs.children path) →
        (∀ c, fs.lookup (path ++ [name]) = some (.file c) →
          ln = "FILE: " ++ name ++ " | Extension: "
            ++ (if splitextExt name = "" then "(no extension)" else splitextExt name)
            ++ " | Size: " ++ toString c.length ++ " bytes") ∧
        (fs.lookup (path ++ [name]) = some .dir → ln = "DIR:  " ++ name ++ "/") := by
  refine ⟨(fs.children path).map (entryLine fs path), ?_, List.length_map _ _, ?_⟩
  · have hld : listdir fs path = .ok (fs.children path) := by
      unfold listdir
      rw [if_pos hdir]
    unfold list_directory
    rw [hld]
    have hemp : ((fs.children path).map (entryLine fs path)).isEmpty = false := by
      rcases hcl : fs.children path with _ | ⟨a, rest⟩
      · exact absurd hcl hne
      · rfl
    simp [hemp]
  · intro ln name hmem
    have hln : ln = entryLine fs path name := zip_map_eq (entryLine fs path) _ ln name hmem
    constructor
    · intro c hc
      rw [hln]
      unfold entryLine
      rw [hc]
    · intro hc
      rw [hln]
      unfold entryLine
      rw [hc]

/-- C6 witness: the spec's scenario — a directory holding a 10-byte `a.txt`
and a subfolder `sub` yields exactly the two report lines. -/
theorem claim_C6_witness :
    (FS.mk [([""], .dir), (["", "tmp"], .dir), (["", "tmp", "x"], .dir),
      (["", "tmp", "x", "a.txt"], .file "0123456789"),
      (["", "tmp", "x", "sub"], .dir)]).isdir ["", "tmp", "x"] = true ∧
    (FS.mk [([""], .dir), (["", "tmp"], .dir), (["", "tmp", "x"], .dir),
      (["", "tmp", "x", "a.txt"], .file "0123456789"),
      (["", "tmp", "x", "sub"], .dir)]).children ["", "tmp", "x"] ≠ [] ∧
    list_directory (FS.mk [([""], .dir), (["", "tmp"], .dir), (["", "tmp", "x"], .dir),
        (["", "tmp", "x", "a.txt"], .file "0123456789"),
        (["", "tmp", "x", "sub"], .dir)]) ["", "tmp", "x"]
      = "FILE: a.txt | Extension: .txt | Size: 10 bytes\nDIR:  sub/" ∧
    (∃ lines : List String,
      list_directory (FS.mk [([""], .dir), (["", "tmp"], .dir), (["", "tmp", "x"], .dir),
          (["", "tmp", "x", "a.txt"], .file "0123456789"),
          (["", "tmp", "x", "sub"], .dir)]) ["", "tmp", "x"]
        = String.intercalate "\n" lines ∧
      lines.length = ((FS.mk [([""], .dir), (["", "tmp"], .dir), (["", "tmp", "x"], .dir),
          (["", "tmp", "x", "a.txt"], .file "0123456789"),
          (["", "tmp", "x", "sub"], .dir)]).children ["", "tmp", "x"]).length ∧
      ∀ ln name, (ln, name) ∈ lines.zip ((FS.mk [([""], .dir), (["", "tmp"], .dir),
          (["", "tmp", "x"], .dir), (["", "tmp", "x", "a.txt"], .file "0123456789"),
          (["", "tmp", "x", "sub"], .dir)]).children ["", "tmp", "x"]) →
        (∀ c, (FS.mk [([""], .dir), (["", "tmp"], .dir), (["", "tmp", "x"], .dir),
            (["", "tmp", "x", "a.txt"], .file "0123456789"),
            (["", "tmp", "x", "sub"], .dir)]).lookup (["", "tmp", "x"] ++ [name])
            = some (.file c) →
          ln = "FILE: " ++ name ++ " | Extension: "
            ++ (if splitextExt name = "" then "(no extension)" else splitextExt name)
            ++ " | Size: " ++ toString c.length ++ " bytes") ∧
        ((FS.mk [([""], .dir), (["", "tmp"], .dir), (["", "tmp", "x"], .dir),
            (["", "tmp", "x", "a.txt"], .file "0123456789"),
            (["", "tmp", "x", "sub"], .dir)]).lookup (["", "tmp", "x"] ++ [name])
            = some .dir → ln = "DIR:  " ++ name ++ "/")) :=
  ⟨rfl, by decide, rfl,
   claim_C6 (FS.mk [([""], .dir), (["", "tmp"], .dir), (["", "tmp", "x"], .dir),
       (["", "tmp", "x", "a.txt"], .file "0123456789"),
       (["", "tmp", "x", "sub"], .dir)]) ["", "tmp", "x"] rfl (by decide)⟩

/-- C7 counterexample: on a path that already exists as a regular file,
`create_folder` (dry-run inactive) returns an error on the first call AND on
the second call, and the directory does not exist afterwards — so the claim's
universal "for every path the second call never errors and the directory
exists" is false. -/
theorem claim_C7_cex :
    (create_folder false
        ⟨[([""], .dir), (["", "tmp"], .dir), (["", "tmp", "notes.txt"], .file "n")]⟩
        ["", "tmp", "notes.txt"]).1
      = "Error: FileExistsError: /tmp/notes.txt" ∧
    (create_folder false
        ((create_folder false
          ⟨[([""], .dir), (["", "tmp"], .dir), (["", "tmp", "notes.txt"], .file "n")]⟩
          ["", "tmp", "notes.txt"]).2)
        ["", "tmp", "notes.txt"]).1
      = "Error: FileExistsError: /tmp/notes.txt" ∧
    ((create_folder false
        ((create_folder false
          ⟨[([""], .dir), (["", "tmp"], .dir), (["", "tmp", "notes.txt"], .file "n")]⟩
          ["", "tmp", "notes.txt"]).2)
        ["", "tmp", "notes.txt"]).2).isdir ["", "tmp", "notes.txt"] = false :=
  ⟨rfl, rfl, rfl⟩

/-- C7 (amended): with dry-run inactive, whenever the first `create_folder`
call on a path returns no error result, the second call on the same path (on
the filesystem the first call left) returns no error result either, and the
directory exists after either call. -/
theorem claim_C7 (fs : FS) (p : Path)
    (h : ¬ isErrorResult (create_folder false fs p).1) :
    ¬ isErrorResult (create_folder false ((create_folder false fs p).2) p).1 ∧
    ((create_folder false fs p).2).isdir p = true ∧
    ((create_folder false ((create_folder false fs p).2) p).2).isdir p = true := by
  cases hmk : makedirs fs p true with
  | error e =>
    exact absurd ⟨e, by simp [create_folder, hmk]⟩ h
  | ok fs1 =>
    have hcf1 : create_folder false fs p = ("Created folder: " ++ renderPath p, fs1) := by
      simp [create_folder, hmk]
    unfold makedirs at hmk
    by_cases hemp : p.isEmpty = true
    · rw [if_pos hemp] at hmk
      cases hmk
    · rw [if_neg hemp] at hmk
      by_cases hany : (pathPrefixes p).any (fun q => fs.isfile q) = true
      · rw [if_pos hany] at hmk
        cases hmk
      · rw [if_neg hany] at hmk
        rw [if_neg (by simp : ¬ (fs.isdir p && !true) = true)] at hmk
        have hfs1 : fs1 = fs.addDirs (pathPrefixes p) := (Except.ok.inj hmk).symm
        have hp_ne : p ≠ [] := fun hnil => hemp (by rw [hnil]; rfl)
        have hfile : ∀ q ∈ pathPrefixes p, fs.isfile q = false := by
          intro q hq
          by_contra hc
          exact hany (List.any_eq_true.mpr ⟨q, hq, by simpa using hc⟩)
        have hdirs1 : ∀ q ∈ pathPrefixes p, fs1.isdir q = true := by
          rw [hfs1]
          exact FS.addDirs_isdir (pathPrefixes p) fs hfile
        have hpd : fs1.isdir p = true := hdirs1 p (self_mem_pathPrefixes p hp_ne)
        have hany1 : ¬ ((pathPrefixes p).any (fun q => fs1.isfile q) = true) := by
          intro hc
          rcases List.any_eq_true.mp hc with ⟨q, hq, hqf⟩
          rw [FS.isfile_eq_false_of_isdir fs1 q (hdirs1 q hq)] at hqf
          cases hqf
        have hmk2 : makedirs fs1 p true = .ok (fs1.addDirs (pathPrefixes p)) := by
          unfold makedirs
          rw [if_neg hemp, if_neg hany1, if_neg (by simp : ¬ (fs1.isdir p && !true) = true)]
        have hcf2 : create_folder false fs1 p
            = ("Created folder: " ++ renderPath p, fs1.addDirs (pathPrefixes p)) := by
          simp [create_folder, hmk2]
        refine ⟨?_, ?_, ?_⟩
        · rw [hcf1]
          intro hex
          rcases hex with ⟨e2, he2⟩
          rw [hcf2] at he2
          exact created_ne_error (renderPath p) e2 he2
        · rw [hcf1]
          exact hpd
        · rw [hcf1, hcf2]
          unfold FS.isdir
          rw [FS.addDirs_lookup_some p .dir (pathPrefixes p) fs1
            (FS.lookup_eq_dir_of_isdir fs1 p hpd)]

/-- C7 witness: the amended statement at a concrete fresh path. -/
theorem claim_C7_witness :
    (¬ isErrorResult (create_folder false ⟨[([""], Entry.dir)]⟩ ["", "docs"]).1) ∧
    (¬ isErrorResult (create_folder false
        ((create_folder false ⟨[([""], Entry.dir)]⟩ ["", "docs"]).2) ["", "docs"]).1) ∧
    ((create_folder false ⟨[([""], Entry.dir)]⟩ ["", "docs"]).2).isdir ["", "docs"] = true ∧
    ((create_folder false ((create_folder false ⟨[([""], Entry.dir)]⟩ ["", "docs"]).2)
        ["", "docs"]).2).isdir ["", "docs"] = true := by
  have h1 : ¬ isErrorResult (create_folder false ⟨[([""], Entry.dir)]⟩ ["", "docs"]).1 := by
    intro hex
    rcases hex with ⟨e, he⟩
    rw [show (create_folder false ⟨[([""], Entry.dir)]⟩ ["", "docs"]).1
        = "Created folder: " ++ "/docs" from rfl] at he
    exact created_ne_error "/docs" e he
  rcases claim_C7 ⟨[([""], Entry.dir)]⟩ ["", "docs"] h1 with ⟨h2, h3, h4⟩
  exact ⟨h1, h2, h3, h4⟩

/-- C5 counterexample: two successful non-dry-run moves violating the claim.
Moving a file onto itself succeeds (`shutil.move` renames it onto itself) yet
the source still exists afterwards; and moving a file to a destination that is
an existing directory succeeds by relocating the file inside it, so the
destination path itself is a directory afterwards, not a file holding the
source's content. -/
theorem claim_C5_cex :
    ((move_file false ⟨[([""], .dir), (["", "tmp"], .dir), (["", "tmp", "a"], .file "hi")]⟩
        ["", "tmp", "a"] ["", "tmp", "a"]).1 = "Moved /tmp/a to /tmp/a" ∧
      ((move_file false ⟨[([""], .dir), (["", "tmp"], .dir), (["", "tmp", "a"], .file "hi")]⟩
        ["", "tmp", "a"] ["", "tmp", "a"]).2).pathExists ["", "tmp", "a"] = true) ∧
    ((move_file false ⟨[([""], .dir), (["", "tmp"], .dir), (["", "tmp", "a"], .file "hi"),
        (["", "y"], .dir)]⟩ ["", "tmp", "a"] ["", "y"]).1 = "Moved /tmp/a to /y" ∧
      ((move_file false ⟨[([""], .dir), (["", "tmp"], .dir), (["", "tmp", "a"], .file "hi"),
        (["", "y"], .dir)]⟩ ["", "tmp", "a"] ["", "y"]).2).lookup ["", "y"] = some .dir) :=
  ⟨⟨rfl, rfl⟩, ⟨rfl, rfl⟩⟩

/-- C5 (amended): on a well-formed filesystem, with dry-run inactive, if the
source is an existing regular file, the destination differs from the source
and is not an existing directory, and `move_file` returns without an error
result, then afterwards the source no longer exists, the destination is a
regular file holding exactly the source's original content, and every
directory on the destination's parent path exists (any previously missing
intermediate directory having been created). -/
theorem claim_C5 (fs : FS) (src dst : Path)
    (hwf : fs.WF)
    (hsrc : fs.isfile src = true)
    (hne : src ≠ dst)
    (hnd : fs.isdir dst = false)
    (hok : ¬ isErrorResult (move_file false fs src dst).1) :
    ∃ c, fs.lookup src = some (.file c) ∧
      ((move_file false fs src dst).2).lookup src = none ∧
      ((move_file false fs src dst).2).lookup dst = some (.file c) ∧
      ∀ q ∈ pathPrefixes dst.dropLast, ((move_file false fs src dst).2).isdir q = true := by
  rcases FS.isfile_exists_file fs src hsrc with ⟨c, hc⟩
  by_cases hde : dst.dropLast.isEmpty = true
  · -- the destination has no parent directory at all: the mkdir step is skipped
    have hdlnil : dst.dropLast = [] := by
      cases hdl : dst.dropLast with
      | nil => rfl
      | cons a l => rw [hdl] at hde; simp at hde
    have hstep : moveMkdirStep fs dst = .ok fs := by
      unfold moveMkdirStep
      rw [if_neg (by rw [hde]; simp)]
    have hsm := shutilMove_file_rename fs src dst c hc hnd (Or.inl hde)
    have hmv : move_file false fs src dst
        = ("Moved " ++ renderPath src ++ " to " ++ renderPath dst,
           ((fs.erase src).erase dst).insert dst (.file c)) := by
      simp [move_file, hstep, hsm]
    rcases insert_erase_post fs src dst (.file c) hne with ⟨hpost1, hpost2, _⟩
    rw [hmv]
    refine ⟨c, hc, hpost1, hpost2, ?_⟩
    intro q hq
    rw [hdlnil] at hq
    simp [pathPrefixes] at hq
  · have hdne : dst.dropLast ≠ [] := fun hnil => hde (by rw [hnil]; rfl)
    have hdef : dst.dropLast.isEmpty = false := by
      cases hdl : dst.dropLast with
      | nil => exact absurd hdl hdne
      | cons a l => rfl
    have hdst_ne : dst ≠ [] := fun hnil => hdne (by rw [hnil]; rfl)
    have hlen : dst.dropLast.length < dst.length := by
      rw [List.length_dropLast]
      have : 0 < dst.length := List.length_pos.mpr hdst_ne
      omega
    by_cases hex : fs.pathExists dst.dropLast = true
    · -- the parent path already exists: the mkdir step is skipped
      have hstep : moveMkdirStep fs dst = .ok fs := by
        unfold moveMkdirStep
        rw [if_neg (by rw [hex]; simp)]
      cases hpe : fs.lookup dst.dropLast with
      | none =>
        exfalso
        unfold FS.pathExists at hex
        rw [hpe] at hex
        simp at hex
      | some e =>
        cases e with
        | file cf =>
          -- the parent exists but is a regular file: the rename raises, so
          -- move_file returns an error result, contradicting success
          exfalso
          have hpdir : fs.isdir dst.dropLast = false := by
            unfold FS.isdir
            rw [hpe]
          have hsm : shutilMove fs src dst
              = .error ("FileNotFoundError: " ++ renderPath dst) := by
            have hbr : shutilMove fs src dst = osRename fs src dst := by
              unfold shutilMove
              rw [hnd]
              simp
            rw [hbr]
            unfold osRename
            rw [hc]
            simp [hpdir, hdef]
          exact hok ⟨"FileNotFoundError: " ++ renderPath dst, by simp [move_file, hstep, hsm]⟩
        | dir =>
          have hpdir : fs.isdir dst.dropLast = true := by
            unfold FS.isdir
            rw [hpe]
          have hsm := shutilMove_file_rename fs src dst c hc hnd (Or.inr hpdir)
          have hmv : move_file false fs src dst
              = ("Moved " ++ renderPath src ++ " to " ++ renderPath dst,
                 ((fs.erase src).erase dst).insert dst (.file c)) := by
            simp [move_file, hstep, hsm]
          rcases insert_erase_post fs src dst (.file c) hne with ⟨hpost1, hpost2, hpost3⟩
          rw [hmv]
          refine ⟨c, hc, hpost1, hpost2, ?_⟩
          intro q hq
          have hqdir : fs.isdir q = true := by
            rcases mem_pathPrefixes_dropLast_or_self dst.dropLast q hq with h | h
            · rw [h]
              exact hpdir
            · exact hwf (dst.dropLast, .dir) (FS.mem_of_lookup fs _ _ hpe) q h
          have hq_src : q ≠ src := by
            intro hqs
            rw [hqs] at hqdir
            rw [FS.lookup_eq_dir_of_isdir fs src hqdir] at hc
            simp at hc
          have hq_dst : q ≠ dst := by
            intro hqd
            have hql := length_le_of_mem_pathPrefixes dst.dropLast q hq
            rw [hqd] at hql
            omega
          unfold FS.isdir
          rw [hpost3 q hq_src hq_dst, FS.lookup_eq_dir_of_isdir fs q hqdir]
    · -- the parent path is missing: makedirs creates it and every ancestor
      have hexf : fs.pathExists dst.dropLast = false := by
        cases hpe : fs.pathExists dst.dropLast
        · rfl
        · exact absurd hpe hex
      have hstep0 : moveMkdirStep fs dst = makedirs fs dst.dropLast false := by
        unfold moveMkdirStep
        rw [if_pos (by rw [hdef, hexf]; decide)]
      cases hmk : makedirs fs dst.dropLast false with
      | error e =>
        exfalso
        exact hok ⟨e, by simp [move_file, hstep0, hmk]⟩
      | ok fs1 =>
        have hmk0 : makedirs fs dst.dropLast false = .ok fs1 := hmk
        unfold makedirs at hmk
        rw [if_neg (by rw [hdef]; decide)] at hmk
        by_cases hany : (pathPrefixes dst.dropLast).any (fun q => fs.isfile q) = true
        · rw [if_pos hany] at hmk
          cases hmk
        · rw [if_neg hany] at hmk
          have hpdirf : fs.isdir dst.dropLast = false :=
            FS.isdir_eq_false_of_not_exists fs _ hexf
          rw [if_neg (by rw [hpdirf]; decide)] at hmk
          have hfs1 : fs1 = fs.addDirs (pathPrefixes dst.dropLast) := (Except.ok.inj hmk).symm
          have hfile : ∀ q ∈ pathPrefixes dst.dropLast, fs.isfile q = false := by
            intro q hq
            by_contra hcf
            exact hany (List.any_eq_true.mpr ⟨q, hq, by simpa using hcf⟩)
          have hdirs1 : ∀ q ∈ pathPrefixes dst.dropLast, fs1.isdir q = true := by
            rw [hfs1]
            exact FS.addDirs_isdir _ fs hfile
          have hlk1 : fs1.lookup src = some (.file c) := by
            rw [hfs1]
            exact FS.addDirs_lookup_some src _ _ fs hc
          have hdst_notmem : dst ∉ pathPrefixes dst.dropLast := by
            intro hmem
            have := length_le_of_mem_pathPrefixes dst.dropLast dst hmem
            omega
          have hludst : fs1.lookup dst = fs.lookup dst := by
            rw [hfs1]
            exact FS.addDirs_lookup_not_mem dst _ fs hdst_notmem
          have hnd1 : fs1.isdir dst = false := by
            unfold FS.isdir
            rw [hludst]
            unfold FS.isdir at hnd
            exact hnd
          have hpdir1 : fs1.isdir dst.dropLast = true :=
            hdirs1 _ (self_mem_pathPrefixes _ hdne)
          have hsm := shutilMove_file_rename fs1 src dst c hlk1 hnd1 (Or.inr hpdir1)
          have hstep : moveMkdirStep fs dst = .ok fs1 := by rw [hstep0, hmk0]
          have hmv : move_file false fs src dst
              = ("Moved " ++ renderPath src ++ " to " ++ renderPath dst,
                 ((fs1.erase src).erase dst).insert dst (.file c)) := by
            simp [move_file, hstep, hsm]
          rcases insert_erase_post fs1 src dst (.file c) hne with ⟨hpost1, hpost2, hpost3⟩
          rw [hmv]
          refine ⟨c, hc, hpost1, hpost2, ?_⟩
          intro q hq
          have hqdir : fs1.isdir q = true := hdirs1 q hq
          have hq_src : q ≠ src := by
            intro hqs
            rw [hqs] at hqdir
            rw [FS.lookup_eq_dir_of_isdir fs1 src hqdir] at hlk1
            simp at hlk1
          have hq_dst : q ≠ dst := by
            intro hqd
            have hql := length_le_of_mem_pathPrefixes dst.dropLast q hq
            rw [hqd] at hql
            omega
          unfold FS.isdir
          rw [hpost3 q hq_src hq_dst, FS.lookup_eq_dir_of_isdir fs1 q hqdir]

/-- C5 witness: a concrete successful move whose destination parent (and
grandparent) directories are created on the way. -/
theorem claim_C5_witness :
    FS.WF ⟨[([""], .dir), (["", "tmp"], .dir), (["", "tmp", "a.txt"], .file "hello")]⟩ ∧
    (FS.mk [([""], .dir), (["", "tmp"], .dir), (["", "tmp", "a.txt"], .file "hello")]).isfile
      ["", "tmp", "a.txt"] = true ∧
    (["", "tmp", "a.txt"] : Path) ≠ ["", "docs", "notes", "a.txt"] ∧
    (FS.mk [([""], .dir), (["", "tmp"], .dir), (["", "tmp", "a.txt"], .file "hello")]).isdir
      ["", "docs", "notes", "a.txt"] = false ∧
    (∃ c, (FS.mk [([""], .dir), (["", "tmp"], .dir),
          (["", "tmp", "a.txt"], .file "hello")]).lookup ["", "tmp", "a.txt"]
        = some (.file c) ∧
      ((move_file false
          ⟨[([""], .dir), (["", "tmp"], .dir), (["", "tmp", "a.txt"], .file "hello")]⟩
          ["", "tmp", "a.txt"] ["", "docs", "notes", "a.txt"]).2).lookup ["", "tmp", "a.txt"]
        = none ∧
      ((move_file false
          ⟨[([""], .dir), (["", "tmp"], .dir), (["", "tmp", "a.txt"], .file "hello")]⟩
          ["", "tmp", "a.txt"] ["", "docs", "notes", "a.txt"]).2).lookup
          ["", "docs", "notes", "a.txt"]
        = some (.file c) ∧
      ∀ q ∈ pathPrefixes (["", "docs", "notes", "a.txt"] : Path).dropLast,
        ((move_file false
          ⟨[([""], .dir), (["", "tmp"], .dir), (["", "tmp", "a.txt"], .file "hello")]⟩
          ["", "tmp", "a.txt"] ["", "docs", "notes", "a.txt"]).2).isdir q = true) := by
  have hok : ¬ isErrorResult (move_file false
      ⟨[([""], .dir), (["", "tmp"], .dir), (["", "tmp", "a.txt"], .file "hello")]⟩
      ["", "tmp", "a.txt"] ["", "docs", "notes", "a.txt"]).1 := by
    intro hex
    rcases hex with ⟨e, he⟩
    rw [show (move_file false
        ⟨[([""], .dir), (["", "tmp"], .dir), (["", "tmp", "a.txt"], .file "hello")]⟩
        ["", "tmp", "a.txt"] ["", "docs", "notes", "a.txt"]).1
        = "Moved " ++ "/tmp/a.txt to /docs/notes/a.txt" from rfl] at he
    exact moved_ne_error "/tmp/a.txt to /docs/notes/a.txt" e he
  exact ⟨by decide, by decide, by decide, by decide,
    claim_C5 ⟨[([""], .dir), (["", "tmp"], .dir), (["", "tmp", "a.txt"], .file "hello")]⟩
      ["", "tmp", "a.txt"] ["", "docs", "notes", "a.txt"]
      (by decide) (by decide) (by decide) (by decide) hok⟩

/-- C9: for every input on which the underlying filesystem operation fails —
every failure of the directory enumeration under `list_directory`, every
failure of the mkdir step or of the move itself (including a destination
conflict) under `move_file` with dry-run inactive, and every failure of the
directory creation under `create_folder` with dry-run inactive — the handler
catches the exception and returns the textual result `"Error: " ++ e` (with
the filesystem exactly as the failing call left it) rather than propagating
the exception to the caller. -/
theorem claim_C9 (fs : FS) (p src dst q : Path) :
    (∀ e, listdir fs p = .error e → list_directory fs p = "Error: " ++ e) ∧
    (∀ e, moveMkdirStep fs dst = .error e →
      move_file false fs src dst = ("Error: " ++ e, fs)) ∧
    (∀ e fs1, moveMkdirStep fs dst = .ok fs1 → shutilMove fs1 src dst = .error e →
      move_file false fs src dst = ("Error: " ++ e, fs1)) ∧
    (∀ e, makedirs fs q true = .error e → create_folder false fs q = ("Error: " ++ e, fs)) := by
  refine ⟨?_, ?_, ?_, ?_⟩
  · intro e he
    unfold list_directory
    rw [he]
  · intro e he
    simp [move_file, he]
  · intro e fs1 h1 h2
    simp [move_file, h1, h2]
  · intro e he
    simp [create_folder, he]

/-- C9 witness: one concrete filesystem exercising a failing input for every
conjunct — a missing listing path, a mkdir step obstructed by a file, a
`shutil.move` destination conflict (the target directory already holds the
source's base name), and a folder creation on a file-occupied path. -/
theorem claim_C9_witness :
    list_directory
        (FS.mk [([""], .dir), (["", "tmp"], .dir), (["", "tmp", "a"], .file "hi"),
          (["", "y"], .dir), (["", "y", "a"], .file "old")]) ["", "nope"]
      = "Error: " ++ "FileNotFoundError: /nope" ∧
    move_file false
        (FS.mk [([""], .dir), (["", "tmp"], .dir), (["", "tmp", "a"], .file "hi"),
          (["", "y"], .dir), (["", "y", "a"], .file "old")])
        ["", "tmp", "a"] ["", "tmp", "a", "sub", "f"]
      = ("Error: " ++ "FileExistsError: /tmp/a/sub",
         FS.mk [([""], .dir), (["", "tmp"], .dir), (["", "tmp", "a"], .file "hi"),
          (["", "y"], .dir), (["", "y", "a"], .file "old")]) ∧
    move_file false
        (FS.mk [([""], .dir), (["", "tmp"], .dir), (["", "tmp", "a"], .file "hi"),
          (["", "y"], .dir), (["", "y", "a"], .file "old")])
        ["", "tmp", "a"] ["", "y"]
      = ("Error: " ++ "Destination path /y/a already exists",
         FS.mk [([""], .dir), (["", "tmp"], .dir), (["", "tmp", "a"], .file "hi"),
          (["", "y"], .dir), (["", "y", "a"], .file "old")]) ∧
    create_folder false
        (FS.mk [([""], .dir), (["", "tmp"], .dir), (["", "tmp", "a"], .file "hi"),
          (["", "y"], .dir), (["", "y", "a"], .file "old")]) ["", "tmp", "a"]
      = ("Error: " ++ "FileExistsError: /tmp/a",
         FS.mk [([""], .dir), (["", "tmp"], .dir), (["", "tmp", "a"], .file "hi"),
          (["", "y"], .dir), (["", "y", "a"], .file "old")]) :=
  ⟨(claim_C9 (FS.mk [([""], .dir), (["", "tmp"], .dir), (["", "tmp", "a"], .file "hi"),
      (["", "y"], .dir), (["", "y", "a"], .file "old")])
      ["", "nope"] ["", "tmp", "a"] ["", "tmp", "a", "sub", "f"] ["", "tmp", "a"]).1
      "FileNotFoundError: /nope" rfl,
   (claim_C9 (FS.mk [([""], .dir), (["", "tmp"], .dir), (["", "tmp", "a"], .file "hi"),
      (["", "y"], .dir), (["", "y", "a"], .file "old")])
      ["", "nope"] ["", "tmp", "a"] ["", "tmp", "a", "sub", "f"] ["", "tmp", "a"]).2.1
      "FileExistsError: /tmp/a/sub" rfl,
   (claim_C9 (FS.mk [([""], .dir), (["", "tmp"], .dir), (["", "tmp", "a"], .file "hi"),
      (["", "y"], .dir), (["", "y", "a"], .file "old")])
      ["", "nope"] ["", "tmp", "a"] ["", "y"] ["", "tmp", "a"]).2.2.1
      "Destination path /y/a already exists"
      (FS.mk [([""], .dir), (["", "tmp"], .dir), (["", "tmp", "a"], .file "hi"),
        (["", "y"], .dir), (["", "y", "a"], .file "old")]) rfl rfl,
   (claim_C9 (FS.mk [([""], .dir), (["", "tmp"], .dir), (["", "tmp", "a"], .file "hi"),
      (["", "y"], .dir), (["", "y", "a"], .file "old")])
      ["", "nope"] ["", "tmp", "a"] ["", "y"] ["", "tmp", "a"]).2.2.2
      "FileExistsError: /tmp/a" rfl⟩

end FileOrganizer
